import Mathlib

/-
Shallow embedding of the MemeCrawler core: the rate limited request queue
(API.emptyBucket and API.addToBucket), the response decoding switch at the
end of API.endpoint, the history paginator Archiver.listChannelMessages, the
batching primitive ChunkHandler, the bounded retry file downloader, and the
chunk writers Archiver.saveFileChunk and Archiver.saveTextChunk.

JavaScript promises are modelled by explicit outcome oracles and event
traces; machine integers do not occur (all counts are small naturals in the
source); the external HTTP transport, the file system and the JSON
serializer are modelled as oracle parameters, following the interface the
source code assumes of them.
-/

namespace MemeCrawler

/- ===================== ChunkHandler (chunkhandler.ts) ===================== -/

/-- Observable state of one ChunkHandler: the internal ordered pool and the
chunks emitted so far on the chunk event, in emission order. -/
structure ChunkState (α : Type) where
  pool : List α
  emitted : List (List α)
  deriving DecidableEq, Repr

/-- ChunkHandler.checkChunks with configured chunk length k.  If the pool
holds fewer items than k nothing happens.  Otherwise the source computes
maxi = len - len % k and emits pool.slice(i, i + k) for i = 0, k, 2k, ...
while i < maxi, then splices the first maxi items away; iteration j of that
loop uses i = j * k, and there are maxi / k iterations.  With k = 0 the
source computes maxi = len - (len % 0) = NaN, runs zero loop iterations and
splices nothing; here len % 0 = len gives maxi = 0, with the same observable
outcome (no emission, pool untouched). -/
def checkChunks {α : Type} (k : Nat) (pool : List α) : List (List α) × List α :=
  if pool.length < k then ([], pool)
  else
    ((List.range ((pool.length - pool.length % k) / k)).map
        (fun j => (pool.drop (j * k)).take k),
      pool.drop (pool.length - pool.length % k))

/-- ChunkHandler.push(...items): the burst is appended to the pool, then
checkChunks runs once; chunks it emits are appended to the emission log. -/
def pushItems {α : Type} (k : Nat) (st : ChunkState α) (items : List α) : ChunkState α :=
  ⟨(checkChunks k (st.pool ++ items)).2,
   st.emitted ++ (checkChunks k (st.pool ++ items)).1⟩

/-- A whole sequence of push calls against a fresh ChunkHandler, one list
entry per push burst. -/
def runPushes {α : Type} (k : Nat) (bursts : List (List α)) : ChunkState α :=
  bursts.foldl (pushItems k) ⟨[], []⟩

/-- ChunkHandler.end(): runs checkChunks, then emits the remaining pool as one
more chunk event, unconditionally - also when the remaining pool is empty.
The pool is not cleared by end. -/
def endHandler {α : Type} (k : Nat) (st : ChunkState α) : ChunkState α :=
  ⟨(checkChunks k st.pool).2,
   st.emitted ++ (checkChunks k st.pool).1 ++ [(checkChunks k st.pool).2]⟩

/- ===================== Request queue (api.ts) ===================== -/

/-- Events observable while the bucket drains.  delayMs n is one completed
await of the delay(n) timer; dispatch r is the start of the fetch for
request r; resolve r is the resolution of the promise handed out for r;
crash is the unhandled rejection that aborts the drain loop when the awaited
fetch throws. -/
inductive QEvent where
  | dispatch (r : Nat)
  | resolve (r : Nat)
  | delayMs (ms : Nat)
  | crash
  deriving DecidableEq, Repr

/-- State of the API request queue: the pending bucket (FIFO, front = next to
dispatch), the emptyingBucket flag, and the settled promises.  The source
stores a reject callback with every bucket item but never invokes it, so the
rejected list can only ever stay as it is. -/
structure QueueState where
  bucket : List Nat
  emptying : Bool
  resolved : List Nat
  rejected : List Nat
  deriving DecidableEq, Repr

/-- The while loop body of API.emptyBucket, fuel-indexed.  outcome r tells
whether the awaited fetch for request r succeeds; arrivals lists, per loop
iteration, the requests pushed by addToBucket calls that run while this
iteration is suspended at an await (they are appended behind the current
bucket, which is exactly where the source push puts them).  One iteration:
shift the head request, await fetch (on rejection the async method aborts
with an unhandled rejection and the emptyingBucket flag is never reset),
resolve the promise, await delay(1000), then break if the bucket is empty;
when the while condition fails the flag is reset. -/
def drainGo (outcome : Nat → Bool) : Nat → List (List Nat) → QueueState → QueueState × List QEvent
  | 0, _, st => (st, [])
  | fuel + 1, arrivals, st =>
    match st.bucket with
    | [] => ({ st with emptying := false }, [])
    | r :: rest =>
      if outcome r then
        if rest ++ arrivals.headD [] = [] then
          ({ st with bucket := rest ++ arrivals.headD [],
                     resolved := st.resolved ++ [r], emptying := false },
           [QEvent.dispatch r, QEvent.resolve r, QEvent.delayMs 1000])
        else
          ((drainGo outcome fuel arrivals.tail
              { st with bucket := rest ++ arrivals.headD [],
                        resolved := st.resolved ++ [r] }).1,
           QEvent.dispatch r :: QEvent.resolve r :: QEvent.delayMs 1000 ::
             (drainGo outcome fuel arrivals.tail
               { st with bucket := rest ++ arrivals.headD [],
                         resolved := st.resolved ++ [r] }).2)
      else
        ({ st with bucket := rest ++ arrivals.headD [] },
         [QEvent.dispatch r, QEvent.crash])

/-- API.emptyBucket: a no-op returning false when a drain is already running,
otherwise it sets the flag and runs the drain loop.  The Bool is the value
the returned promise resolves to when it resolves; after a crash the promise
in the source in fact rejects, unhandled, which the crash event records. -/
def emptyBucket (outcome : Nat → Bool) (fuel : Nat) (arrivals : List (List Nat))
    (st : QueueState) : Bool × QueueState × List QEvent :=
  if st.emptying then (false, st, [])
  else
    (true,
     (drainGo outcome fuel arrivals { st with emptying := true }).1,
     (drainGo outcome fuel arrivals { st with emptying := true }).2)

/-- API.addToBucket: push the request at the back of the bucket, then start
emptyBucket (fire and forget). -/
def addToBucket (outcome : Nat → Bool) (fuel : Nat) (arrivals : List (List Nat))
    (r : Nat) (st : QueueState) : QueueState × List QEvent :=
  ((emptyBucket outcome fuel arrivals { st with bucket := st.bucket ++ [r] }).2.1,
   (emptyBucket outcome fuel arrivals { st with bucket := st.bucket ++ [r] }).2.2)

/-- The subsequence of requests whose fetch was started, in start order. -/
def dispatchesOf : List QEvent → List Nat
  | [] => []
  | QEvent.dispatch r :: rest => r :: dispatchesOf rest
  | _ :: rest => dispatchesOf rest

/-- Scanner for the minimum spacing property: needDelay records that a
dispatch has completed and no delay of at least 1000 ms has been awaited
since; a further dispatch in that situation falsifies the property. -/
def gapScan : Bool → List QEvent → Bool
  | _, [] => true
  | needDelay, QEvent.dispatch _ :: rest =>
      if needDelay then false else gapScan true rest
  | needDelay, QEvent.delayMs n :: rest =>
      gapScan (needDelay && decide (n < 1000)) rest
  | needDelay, _ :: rest => gapScan needDelay rest

/- ===================== Paginator (archiver.ts) ===================== -/

/-- The loop body of Archiver.listChannelMessages, fuel-indexed.  The call
api.getChannelMessages(channel, limit, before = lastMessage) is modelled by
its contract: it returns the next (up to) limit messages of the remaining
newest-to-oldest history after the cursor, so the remaining history rem
stands for the suffix not yet delivered.  One step: fetch a page, yield it,
then evaluate messages[messages.length - 1].id - which throws a TypeError
when the page is empty (flag true, the generator raises on the resume after
the yield) - and finally break when the page is shorter than the limit. -/
def paginateGo {α : Type} (limit : Nat) : Nat → List α → List (List α) × Bool
  | 0, _ => ([], false)
  | fuel + 1, rem =>
    if (rem.take limit).isEmpty then ([rem.take limit], true)
    else if (rem.take limit).length < limit then ([rem.take limit], false)
    else
      ((rem.take limit) :: (paginateGo limit fuel (rem.drop limit)).1,
       (paginateGo limit fuel (rem.drop limit)).2)

/-- Archiver.listChannelMessages over a channel whose full newest-to-oldest
history is hist: the pages yielded in order, and whether the generator ended
by raising (true) instead of terminating normally (false).  The source fixes
limit = 100; the fuel hist.length + 1 is enough for the loop to reach its
own exit, as proved below. -/
def listChannelMessagesModel {α : Type} (limit : Nat) (hist : List α) :
    List (List α) × Bool :=
  paginateGo limit (hist.length + 1) hist

/- ===================== download (archiver.ts) ===================== -/

/-- Outcome of one getResponse attempt: reject covers a request error, a
status of at least 400 and a response error (all surface as a rejection the
try block catches); response carries the parsed content-length header, none
when the header is absent. -/
inductive Attempt where
  | reject
  | response (contentLength : Option Nat)
  deriving DecidableEq, Repr

/-- What one download call did: the returned boolean, whether anything was
piped to the destination, and how many getResponse attempts were made. -/
structure DownloadResult where
  success : Bool
  wrote : Bool
  attemptsMade : Nat
  deriving DecidableEq, Repr

/-- The JavaScript comparison a > b on numbers that may be Infinity, with
none standing for Infinity: the source coalesces a missing content-length
header to Infinity before comparing it with maxSize. -/
def infGt : Option Nat → Option Nat → Bool
  | none, none => false
  | none, some _ => true
  | some _, none => false
  | some a, some b => decide (b < a)

/-- The retry loop of download: at most five attempts; a caught rejection
retries; a content-length above maxSize returns false immediately without
writing and without another attempt; otherwise the body is piped to the
destination and the loop breaks with success.  att i is the outcome of
attempt number i; made counts getResponse calls already made. -/
def downloadGo (maxSize : Option Nat) (att : Nat → Attempt) : Nat → Nat → DownloadResult
  | 0, made => ⟨false, false, made⟩
  | left + 1, made =>
    match att made with
    | Attempt.reject => downloadGo maxSize att left (made + 1)
    | Attempt.response cl =>
      if infGt cl maxSize then ⟨false, false, made + 1⟩
      else ⟨true, true, made + 1⟩

/-- download(url, dest, maxSize): the loop starts at tries = 0 with the bound
of five attempts; the default maxSize is Infinity (none). -/
def downloadModel (att : Nat → Attempt) (maxSize : Option Nat) : DownloadResult :=
  downloadGo maxSize att 5 0

/- ===================== API.endpoint response decoding ===================== -/

/-- What the endpoint decoder did with the response body: returned the raw
byte buffer, decoded it as UTF-8 text, or JSON-parsed the decoded text.  The
byte buffer itself is opaque here (its decoding is the external JSON and
text machinery), so the payload records which buffer the action applied to. -/
inductive Decoded (α : Type) where
  | raw (data : α)
  | text (data : α)
  | json (data : α)
  deriving DecidableEq, Repr

/-- The switch on response.headers content-type at the end of API.endpoint: a
strict string match against exactly text/plain and exactly application/json,
everything else (a missing header included) falls to the default branch and
is returned as the raw buffer. -/
def endpointDecode {α : Type} (contentType : Option String) (data : α) : Decoded α :=
  match contentType with
  | some "text/plain" => Decoded.text data
  | some "application/json" => Decoded.json data
  | _ => Decoded.raw data

/- ===================== Chunk writers (archiver.ts) ===================== -/

/-- A source message, reduced to what the writers read from it. -/
structure MsgM where
  id : String
  deriving DecidableEq, Repr

/-- One element of a text chunk, as built by extractMessageContent. -/
structure MessageContentM where
  author : String
  content : String
  source : MsgM
  deriving DecidableEq, Repr

/-- One element of a file chunk, as built by extractMessageFiles; msgid is
the id of the originating message. -/
structure MessageFileM where
  url : String
  filename : String
  msgid : String
  deriving DecidableEq, Repr

/-- One record of the entry manifest written by saveFileChunk. -/
structure FileEntry where
  filename : String
  filename_original : String
  url : String
  msgid : String
  deriving DecidableEq, Repr

/-- The manifest JSON shape of saveFileChunk, without the wall clock date
field (real time is not modelled). -/
structure FileManifest where
  entries : List FileEntry
  total : Nat
  spans : List String
  deriving DecidableEq, Repr

/-- Accumulator of the per-file loop of saveFileChunk. -/
structure FileLoopAcc where
  downloads : List String
  warnings : List String
  sourceWrites : List String
  entries : List FileEntry
  deriving DecidableEq, Repr

/-- Everything observable about one saveFileChunk call: the early no-op
return, the urls for which download was invoked, the warnings printed, the
side-car source files written, the manifest written (none when no manifest
file is written at all), and the returned boolean. -/
structure FileChunkResult where
  noop : Bool
  downloads : List String
  warnings : List String
  sourceWrites : List String
  manifest : Option FileManifest
  returned : Bool
  deriving DecidableEq, Repr

/-- Index of the last occurrence of a character, used to model extname. -/
def lastIdxOf (c : Char) : List Char → Option Nat
  | [] => none
  | x :: xs =>
    match lastIdxOf c xs with
    | some i => some (i + 1)
    | none => if x = c then some 0 else none

/-- extname from node:path, for the plain file names the writers handle (no
directory separators): the suffix of the name from its last dot, and the
empty string when there is no dot or the only dot is the leading one. -/
def extname (s : String) : String :=
  match lastIdxOf '.' s.toList with
  | none => ""
  | some 0 => ""
  | some i => String.mk (s.toList.drop i)

/-- The stored file name computed by saveFileChunk: names longer than 50 are
cut to 50 with the original extension re-appended, and the originating
message id is prefixed. -/
def storedName (f : MessageFileM) : String :=
  f.msgid ++ "." ++
    (if 50 < f.filename.length
     then String.mk (f.filename.toList.take 50) ++ extname f.filename
     else f.filename)

/-- The manifest record saveFileChunk pushes for a file. -/
def fileEntryOf (f : MessageFileM) : FileEntry :=
  ⟨storedName f, f.filename, f.url, f.msgid⟩

/-- Truthiness of the value the source binds to success in saveFileChunk: the
call download(file.url, writepath, options.maxFileSize) is not awaited, so
success is bound to the Promise object itself, and an object is always
truthy in JavaScript - whatever the eventual download outcome. -/
def promiseTruthy : Bool := true

/-- One iteration of the per-file loop of saveFileChunk.  fsExists is the
existsSync oracle on destination paths.  When the destination is fresh (or
overwrite is set) the download is started and its promise bound to success;
the branch that would warn and skip the manifest entry tests the truthiness
of that promise, and the entry push after the branch runs in every other
case - the continue is modelled by not reaching the entry push. -/
def saveFileStep (overwrite saveSources : Bool) (fsExists : String → Bool)
    (dir : String) (acc : FileLoopAcc) (f : MessageFileM) : FileLoopAcc :=
  if overwrite || !(fsExists (dir ++ "/files/" ++ storedName f)) then
    if !promiseTruthy then
      { acc with downloads := acc.downloads ++ [f.url],
                 warnings := acc.warnings ++ [f.url] }
    else
      if saveSources then
        { acc with downloads := acc.downloads ++ [f.url],
                   sourceWrites :=
                     acc.sourceWrites ++ [dir ++ "/files/" ++ storedName f ++ ".source.json"],
                   entries := acc.entries ++ [fileEntryOf f] }
      else
        { acc with downloads := acc.downloads ++ [f.url],
                   entries := acc.entries ++ [fileEntryOf f] }
  else
    { acc with entries := acc.entries ++ [fileEntryOf f] }

/-- Archiver.saveFileChunk: an empty chunk returns true before touching the
file system and writes no manifest; otherwise the per-file loop runs and one
manifest is written whose spans are the msgids of the first and last
recorded entries (dir stands for the destination, guild, channel and type
path prefix the source joins at the head of the function). -/
def saveFileChunkModel (overwrite saveSources : Bool) (fsExists : String → Bool)
    (dir : String) (chunk : List MessageFileM) : FileChunkResult :=
  if chunk.length = 0 then ⟨true, [], [], [], none, true⟩
  else
    ⟨false,
     (chunk.foldl (saveFileStep overwrite saveSources fsExists dir) ⟨[], [], [], []⟩).downloads,
     (chunk.foldl (saveFileStep overwrite saveSources fsExists dir) ⟨[], [], [], []⟩).warnings,
     (chunk.foldl (saveFileStep overwrite saveSources fsExists dir) ⟨[], [], [], []⟩).sourceWrites,
     some ⟨(chunk.foldl (saveFileStep overwrite saveSources fsExists dir) ⟨[], [], [], []⟩).entries,
           (chunk.foldl (saveFileStep overwrite saveSources fsExists dir) ⟨[], [], [], []⟩).entries.length,
           [((chunk.foldl (saveFileStep overwrite saveSources fsExists dir) ⟨[], [], [], []⟩).entries.headD ⟨"", "", "", ""⟩).msgid,
            ((chunk.foldl (saveFileStep overwrite saveSources fsExists dir) ⟨[], [], [], []⟩).entries.getLastD ⟨"", "", "", ""⟩).msgid]⟩,
     false⟩

/-- The manifest JSON shape of saveTextChunk, date field again omitted. -/
structure TextManifest where
  entries : List String
  total : Nat
  spans : List String
  deriving DecidableEq, Repr

/-- The JavaScript errors the writers can raise. -/
inductive JsError where
  | typeError
  deriving DecidableEq, Repr

/-- Archiver.saveTextChunk: the manifest name and spans read chunk[0] and
chunk[chunk.length - 1] with no emptiness guard, so an empty chunk throws a
TypeError (reading source of undefined) before any file is written.
stringify stands for the external JSON.stringify of a source message. -/
def saveTextChunkModel (stringify : MsgM → String) (chunk : List MessageContentM) :
    Except JsError TextManifest :=
  match chunk with
  | [] => Except.error JsError.typeError
  | c0 :: _ =>
    Except.ok ⟨chunk.map (fun c => stringify c.source), chunk.length,
               [c0.source.id, (chunk.getLastD c0).source.id]⟩

/- ===================== ChunkHandler lemmas ===================== -/

/-- The chunk slices emitted by one checkChunks pass concatenate to the first
c * k pool items. -/
theorem slices_flatten {α : Type} (k : Nat) (pool : List α) :
    ∀ c : Nat, c * k ≤ pool.length →
      ((List.range c).map (fun j => (pool.drop (j * k)).take k)).flatten
        = pool.take (c * k) := by
  intro c
  induction c with
  | zero => intro _; simp
  | succ c ih =>
    intro h
    have hck : c * k ≤ pool.length :=
      le_trans (Nat.mul_le_mul_right k (Nat.le_succ c)) h
    rw [List.range_succ, List.map_append, List.flatten_append, ih hck]
    simp [Nat.succ_mul, List.take_add]

/-- Splitting invariant of checkChunks: emitted chunks followed by the kept
remainder are exactly the pool. -/
theorem checkChunks_flatten {α : Type} (k : Nat) (pool : List α) :
    (checkChunks k pool).1.flatten ++ (checkChunks k pool).2 = pool := by
  unfold checkChunks
  by_cases h : pool.length < k
  · simp [h]
  · simp only [h, if_false]
    rcases Nat.eq_zero_or_pos k with hk | hk
    · subst hk; simp
    · have hd := Nat.div_add_mod pool.length k
      have hmaxi : pool.length - pool.length % k = k * (pool.length / k) := by omega
      have hcount : (pool.length - pool.length % k) / k = pool.length / k := by
        rw [hmaxi, Nat.mul_div_cancel_left _ hk]
      have hcomm : pool.length / k * k = k * (pool.length / k) := Nat.mul_comm _ _
      have hle : pool.length / k * k ≤ pool.length := Nat.div_mul_le_self _ _
      rw [hcount, slices_flatten k pool (pool.length / k) hle]
      rw [show pool.length - pool.length % k = pool.length / k * k by omega]
      exact List.take_append_drop _ _

/-- Every chunk emitted by checkChunks has exactly the configured length. -/
theorem checkChunks_sizes {α : Type} (k : Nat) (pool : List α) :
    ∀ c ∈ (checkChunks k pool).1, c.length = k := by
  intro c hc
  unfold checkChunks at hc
  by_cases h : pool.length < k
  · simp [h] at hc
  · simp only [h, if_false] at hc
    rcases Nat.eq_zero_or_pos k with hk | hk
    · subst hk; simp at hc
    · have hcount : (pool.length - pool.length % k) / k = pool.length / k := by
        have hd := Nat.div_add_mod pool.length k
        have hmaxi : pool.length - pool.length % k = k * (pool.length / k) := by omega
        rw [hmaxi, Nat.mul_div_cancel_left _ hk]
      rw [hcount] at hc
      simp only [List.mem_map, List.mem_range] at hc
      obtain ⟨j, hj, rfl⟩ := hc
      have h2 : (j + 1) * k ≤ pool.length / k * k := Nat.mul_le_mul_right k hj
      have h3 : pool.length / k * k ≤ pool.length := Nat.div_mul_le_self _ _
      have h4 : (j + 1) * k = j * k + k := Nat.succ_mul j k
      have hjk : j * k + k ≤ pool.length := by omega
      simp only [List.length_take, List.length_drop]
      omega

/-- The pool kept by checkChunks has length pool.length mod k. -/
theorem checkChunks_rest_length {α : Type} (k : Nat) (pool : List α) :
    (checkChunks k pool).2.length = pool.length % k := by
  unfold checkChunks
  by_cases h : pool.length < k
  · simp [h, Nat.mod_eq_of_lt h]
  · simp only [h, if_false]
    have hle := Nat.mod_le pool.length k
    simp only [List.length_drop]
    omega

/-- When the pool is already a remainder (its length equals its length mod k)
checkChunks emits nothing and keeps the pool. -/
theorem checkChunks_small {α : Type} (k : Nat) (pool : List α)
    (h : pool.length % k = pool.length) : checkChunks k pool = ([], pool) := by
  rcases Nat.eq_zero_or_pos k with hk | hk
  · subst hk
    unfold checkChunks
    simp
  · have hlt : pool.length < k := by
      have := Nat.mod_lt pool.length hk
      omega
    simp [checkChunks, hlt]

/-- Fold invariant: the emission log followed by the pool is the starting
content followed by all pushed items, in order. -/
theorem pushRun_flatten {α : Type} (k : Nat) (bursts : List (List α)) :
    ∀ st : ChunkState α,
      (bursts.foldl (pushItems k) st).emitted.flatten ++ (bursts.foldl (pushItems k) st).pool
        = st.emitted.flatten ++ (st.pool ++ bursts.flatten) := by
  induction bursts with
  | nil => intro st; simp
  | cons b bs ih =>
    intro st
    rw [List.foldl_cons, ih]
    simp only [pushItems, List.flatten_append, List.flatten_cons, List.append_assoc]
    congr 1
    rw [← List.append_assoc, checkChunks_flatten k (st.pool ++ b), List.append_assoc]

/-- Fold invariant: all chunks in the emission log have the configured
length. -/
theorem pushRun_sizes {α : Type} (k : Nat) (bursts : List (List α)) :
    ∀ st : ChunkState α, (∀ c ∈ st.emitted, c.length = k) →
      ∀ c ∈ (bursts.foldl (pushItems k) st).emitted, c.length = k := by
  induction bursts with
  | nil => intro st h; simpa using h
  | cons b bs ih =>
    intro st h
    refine ih _ ?_
    intro c hc
    simp only [pushItems, List.mem_append] at hc
    rcases hc with hc | hc
    · exact h c hc
    · exact checkChunks_sizes k (st.pool ++ b) c hc

/-- Fold invariant: the pool length tracks the pushed count mod k. -/
theorem pushRun_poolLength {α : Type} (k : Nat) (bursts : List (List α)) :
    ∀ st : ChunkState α, st.pool.length % k = st.pool.length →
      (bursts.foldl (pushItems k) st).pool.length
        = (st.pool.length + bursts.flatten.length) % k := by
  induction bursts with
  | nil =>
    intro st h
    simpa using h.symm
  | cons b bs ih =>
    intro st h
    rw [List.foldl_cons]
    have hpl : (pushItems k st b).pool.length = (st.pool.length + b.length) % k := by
      simp [pushItems, checkChunks_rest_length]
    have hsm : (pushItems k st b).pool.length % k = (pushItems k st b).pool.length := by
      rw [hpl]
      exact Nat.mod_mod_of_dvd _ dvd_rfl
    rw [ih _ hsm, hpl, Nat.mod_add_mod]
    simp [Nat.add_assoc]

/-- C5: pushing any sequence of item bursts into a ChunkHandler with
configured chunk length k and then calling end emits chunks whose
concatenation is exactly the pushed items in push order, whose lengths sum to
the number of items pushed, and of which every chunk except possibly the last
has length exactly k. -/
theorem chunkHandler_push_end_spec {α : Type} (k : Nat) (bursts : List (List α)) :
    (endHandler k (runPushes k bursts)).emitted.flatten = bursts.flatten
  ∧ ((endHandler k (runPushes k bursts)).emitted.map List.length).sum = bursts.flatten.length
  ∧ (endHandler k (runPushes k bursts)).emitted.dropLast.all
      (fun c => c.length == k) = true := by
  have hrun := pushRun_flatten k bursts ⟨[], []⟩
  simp only [List.flatten, List.nil_append] at hrun
  have hflat : (endHandler k (runPushes k bursts)).emitted.flatten = bursts.flatten := by
    simp only [endHandler, List.flatten_append, List.flatten_cons, List.flatten_nil,
      List.append_nil]
    rw [List.append_assoc, checkChunks_flatten k (runPushes k bursts).pool]
    simpa [runPushes] using hrun
  refine ⟨hflat, ?_, ?_⟩
  · rw [← List.length_flatten, hflat]
  · have hdrop : (endHandler k (runPushes k bursts)).emitted.dropLast
        = (runPushes k bursts).emitted ++ (checkChunks k (runPushes k bursts).pool).1 := by
      simp only [endHandler]
      rw [List.dropLast_concat]
    rw [hdrop, List.all_eq_true]
    intro c hc
    rw [beq_iff_eq]
    rcases List.mem_append.mp hc with hc | hc
    · exact pushRun_sizes k bursts ⟨[], []⟩ (by intro c hc; simp at hc) c hc
    · exact checkChunks_sizes k (runPushes k bursts).pool c hc

/-- C6 counterexample: closing a fresh ChunkHandler with chunk length 2 and
an empty pool emits one chunk, the empty chunk, not nothing - the emission
log after end is the one-element list holding the empty list. -/
theorem chunkHandler_end_empty_pool_emits :
    (endHandler 2 (⟨[], []⟩ : ChunkState Nat)).emitted = [[]]
  ∧ (endHandler 2 (⟨[], []⟩ : ChunkState Nat)).emitted ≠ [] := by
  constructor
  · decide
  · decide

/-- C6 (amended): after any push sequence, end flushes no further complete
chunk and then always emits exactly one final chunk holding the remaining
pool - an empty chunk when the pool is empty - and the remaining pool holds
exactly pushedCount mod k items. -/
theorem chunkHandler_end_emits_remainder {α : Type} (k : Nat) (bursts : List (List α)) :
    (endHandler k (runPushes k bursts)).emitted
      = (runPushes k bursts).emitted ++ [(runPushes k bursts).pool]
  ∧ (runPushes k bursts).pool.length = bursts.flatten.length % k := by
  have hlen : (runPushes k bursts).pool.length = bursts.flatten.length % k := by
    have h := pushRun_poolLength k bursts ⟨[], []⟩ (by simp)
    simpa [runPushes] using h
  have hsm : (runPushes k bursts).pool.length % k = (runPushes k bursts).pool.length := by
    rw [hlen]
    exact Nat.mod_mod_of_dvd _ dvd_rfl
  have hcc := checkChunks_small k (runPushes k bursts).pool hsm
  refine ⟨?_, hlen⟩
  simp [endHandler, hcc]

/- ===================== Request queue lemmas ===================== -/

/-- The head arrival burst followed by the remaining bursts is all arriving
requests. -/
theorem headD_append_tail_flatten (arrivals : List (List Nat)) :
    arrivals.headD [] ++ arrivals.tail.flatten = arrivals.flatten := by
  cases arrivals with
  | nil => simp
  | cons a as => simp

/-- One-step unfolding of the drain loop at positive fuel. -/
theorem drainGo_succ (outcome : Nat → Bool) (fuel : Nat) (arrivals : List (List Nat))
    (st : QueueState) :
    drainGo outcome (fuel + 1) arrivals st =
      match st.bucket with
      | [] => ({ st with emptying := false }, [])
      | r :: rest =>
        if outcome r then
          if rest ++ arrivals.headD [] = [] then
            ({ st with bucket := rest ++ arrivals.headD [],
                       resolved := st.resolved ++ [r], emptying := false },
             [QEvent.dispatch r, QEvent.resolve r, QEvent.delayMs 1000])
          else
            ((drainGo outcome fuel arrivals.tail
                { st with bucket := rest ++ arrivals.headD [],
                          resolved := st.resolved ++ [r] }).1,
             QEvent.dispatch r :: QEvent.resolve r :: QEvent.delayMs 1000 ::
               (drainGo outcome fuel arrivals.tail
                 { st with bucket := rest ++ arrivals.headD [],
                           resolved := st.resolved ++ [r] }).2)
        else
          ({ st with bucket := rest ++ arrivals.headD [] },
           [QEvent.dispatch r, QEvent.crash]) := rfl

/-- The drain loop never rejects a promise: the stored reject callbacks are
dead, whatever the transport outcomes. -/
theorem drainGo_rejected (outcome : Nat → Bool) :
    ∀ (fuel : Nat) (arrivals : List (List Nat)) (st : QueueState),
      ((drainGo outcome fuel arrivals st).1).rejected = st.rejected := by
  intro fuel
  induction fuel with
  | zero => intro arrivals st; simp [drainGo]
  | succ n ih =>
    intro arrivals st
    obtain ⟨bucket, emptying, resolved, rejected⟩ := st
    cases bucket with
    | nil => simp [drainGo]
    | cons r rest =>
      rw [drainGo_succ]
      dsimp only
      cases ho : outcome r with
      | false => rw [if_neg (by simp)]
      | true =>
        rw [if_pos rfl]
        by_cases hb : rest ++ arrivals.headD [] = []
        · rw [if_pos hb]
        · rw [if_neg hb]
          exact ih arrivals.tail
            ⟨rest ++ arrivals.headD [], emptying, resolved ++ [r], rejected⟩

/-- Dispatch order is a prefix of the enqueue order: the requests whose fetch
starts are exactly the first so-many of the pending bucket followed by the
arrivals in arrival order. -/
theorem drainGo_fifo (outcome : Nat → Bool) :
    ∀ (fuel : Nat) (arrivals : List (List Nat)) (st : QueueState),
      dispatchesOf (drainGo outcome fuel arrivals st).2
        = (st.bucket ++ arrivals.flatten).take
            (dispatchesOf (drainGo outcome fuel arrivals st).2).length := by
  intro fuel
  induction fuel with
  | zero => intro arrivals st; simp [drainGo, dispatchesOf]
  | succ n ih =>
    intro arrivals st
    obtain ⟨bucket, emptying, resolved, rejected⟩ := st
    cases bucket with
    | nil => simp [drainGo, dispatchesOf]
    | cons r rest =>
      rw [drainGo_succ]
      dsimp only
      cases ho : outcome r with
      | false =>
        rw [if_neg (by simp)]
        simp [dispatchesOf]
      | true =>
        rw [if_pos rfl]
        by_cases hb : rest ++ arrivals.headD [] = []
        · rw [if_pos hb]
          simp [dispatchesOf]
        · rw [if_neg hb]
          have hrec := ih arrivals.tail
            ⟨rest ++ arrivals.headD [], emptying, resolved ++ [r], rejected⟩
          dsimp only at hrec
          rw [List.append_assoc, headD_append_tail_flatten] at hrec
          simp only [dispatchesOf, List.cons_append, List.length_cons, List.take_succ_cons]
          exact congrArg (List.cons r) hrec

/-- Between the completion of one dispatch and the start of the next the
drain loop always awaits the fixed 1000 ms delay. -/
theorem drainGo_gap (outcome : Nat → Bool) :
    ∀ (fuel : Nat) (arrivals : List (List Nat)) (st : QueueState),
      gapScan false (drainGo outcome fuel arrivals st).2 = true := by
  intro fuel
  induction fuel with
  | zero => intro arrivals st; simp [drainGo, gapScan]
  | succ n ih =>
    intro arrivals st
    obtain ⟨bucket, emptying, resolved, rejected⟩ := st
    cases bucket with
    | nil => simp [drainGo, gapScan]
    | cons r rest =>
      rw [drainGo_succ]
      dsimp only
      cases ho : outcome r with
      | false =>
        rw [if_neg (by simp)]
        simp [gapScan]
      | true =>
        rw [if_pos rfl]
        by_cases hb : rest ++ arrivals.headD [] = []
        · rw [if_pos hb]
          simp [gapScan]
        · rw [if_neg hb]
          simpa [gapScan] using
            ih arrivals.tail
              ⟨rest ++ arrivals.headD [], emptying, resolved ++ [r], rejected⟩

/-- With a healthy transport and no late arrivals the drain serves the whole
bucket: every pending request is dispatched and resolved in FIFO order and
the emptying flag is reset. -/
theorem drainGo_all_success :
    ∀ (bucket resolved rejected : List Nat) (emptying : Bool),
      (drainGo (fun _ => true) (bucket.length + 1) [] ⟨bucket, emptying, resolved, rejected⟩).1
        = ⟨[], false, resolved ++ bucket, rejected⟩ := by
  intro bucket
  induction bucket with
  | nil => intro res rej emp; simp [drainGo]
  | cons r rest ih =>
    intro res rej emp
    simp only [List.length_cons]
    rw [drainGo_succ]
    dsimp only
    rw [if_pos rfl]
    by_cases hb : rest ++ ([] : List (List Nat)).headD [] = []
    · rw [if_pos hb]
      simp at hb
      subst hb
      simp
    · rw [if_neg hb]
      have hrec := ih (res ++ [r]) rej emp
      simpa [List.append_assoc] using hrec

/-- C8: requests are dispatched strictly in FIFO enqueue order; the trace
always interposes the fixed 1000 ms delay between the completion of one
dispatch and the start of the next; a re-entrant emptyBucket start while a
drain is marked running is a no-op returning false and leaving the state and
trace untouched; and with a healthy transport a drain serves the entire
bucket in order, so at most the single started drain loop is ever active. -/
theorem queue_fifo_delay_single_drain (outcome : Nat → Bool) (fuel : Nat)
    (arrivals : List (List Nat)) (bucket resolved rejected : List Nat) :
    emptyBucket outcome fuel arrivals ⟨bucket, true, resolved, rejected⟩
      = (false, ⟨bucket, true, resolved, rejected⟩, [])
  ∧ dispatchesOf (drainGo outcome fuel arrivals ⟨bucket, true, resolved, rejected⟩).2
      = (bucket ++ arrivals.flatten).take
          (dispatchesOf (drainGo outcome fuel arrivals ⟨bucket, true, resolved, rejected⟩).2).length
  ∧ gapScan false (drainGo outcome fuel arrivals ⟨bucket, true, resolved, rejected⟩).2 = true
  ∧ (drainGo (fun _ => true) (bucket.length + 1) [] ⟨bucket, true, resolved, rejected⟩).1
      = ⟨[], false, resolved ++ bucket, rejected⟩ := by
  refine ⟨?_, ?_, ?_, ?_⟩
  · simp [emptyBucket]
  · exact drainGo_fifo outcome fuel arrivals ⟨bucket, true, resolved, rejected⟩
  · exact drainGo_gap outcome fuel arrivals ⟨bucket, true, resolved, rejected⟩
  · exact drainGo_all_success bucket resolved rejected true

/-- C1: the code_bug evidence.  First, no run of the drain loop ever rejects
a request promise (the stored reject callback is never invoked).  Second, the
concrete failing run: request 1 is enqueued on an idle queue, request 2
arrives while the fetch for 1 is in flight, and the transport call for 1
fails; afterwards nothing was resolved, nothing was rejected (the promise of
request 1 is pending forever), request 2 is still in the bucket, the
emptyingBucket flag is stuck true, and only request 1 was ever dispatched.
Third, a request enqueued later is appended but never dispatched because the
stuck flag makes its emptyBucket call a no-op. -/
theorem queue_transport_failure_behavior :
    (∀ (outcome : Nat → Bool) (fuel : Nat) (arrivals : List (List Nat)) (st : QueueState),
        ((drainGo outcome fuel arrivals st).1).rejected = st.rejected)
  ∧ addToBucket (fun r => r != 1) 5 [[2]] 1 ⟨[], false, [], []⟩
      = (⟨[2], true, [], []⟩, [QEvent.dispatch 1, QEvent.crash])
  ∧ addToBucket (fun r => r != 1) 5 [] 3 ⟨[2], true, [], []⟩
      = (⟨[2, 3], true, [], []⟩, []) := by
  refine ⟨drainGo_rejected, ?_, ?_⟩
  · decide
  · decide

/- ===================== Paginator lemmas ===================== -/

/-- One-step unfolding of the pagination loop at positive fuel. -/
theorem paginateGo_succ {α : Type} (limit fuel : Nat) (rem : List α) :
    paginateGo limit (fuel + 1) rem =
      if (rem.take limit).isEmpty then ([rem.take limit], true)
      else if (rem.take limit).length < limit then ([rem.take limit], false)
      else
        ((rem.take limit) :: (paginateGo limit fuel (rem.drop limit)).1,
         (paginateGo limit fuel (rem.drop limit)).2) := rfl

/-- Ceiling division, written as the source-facing (n + L - 1) / L, counts one
more page than the floor when the last page is partial. -/
theorem ceil_div_of_mod_ne {n L : Nat} (hl : 1 ≤ L) (hm : n % L ≠ 0) :
    (n + L - 1) / L = n / L + 1 := by
  have hd := Nat.div_add_mod n L
  have hmlt : n % L < L := Nat.mod_lt n (by omega)
  have h1 : n + L - 1 = L * (n / L) + (n % L - 1 + L) := by omega
  rw [h1, Nat.mul_add_div (by omega : 0 < L), Nat.add_div_right _ (by omega : 0 < L),
    Nat.div_eq_of_lt (by omega : n % L - 1 < L)]

/-- Shape of a full pagination run when the history size is not a multiple of
the page limit: the generator terminates normally, the pages concatenate to
the history, and the page lengths are limit-many full pages followed by one
partial page of length historyLength mod limit. -/
theorem paginateGo_spec {α : Type} (limit : Nat) :
    ∀ (fuel : Nat) (rem : List α), rem.length < fuel → 1 ≤ limit →
      rem.length % limit ≠ 0 →
      (paginateGo limit fuel rem).2 = false
    ∧ (paginateGo limit fuel rem).1.flatten = rem
    ∧ (paginateGo limit fuel rem).1.map List.length
        = List.replicate (rem.length / limit) limit ++ [rem.length % limit] := by
  intro fuel
  induction fuel with
  | zero => intro rem h hl hm; omega
  | succ n ih =>
    intro rem hfuel hl hm
    rw [paginateGo_succ]
    have hminlen : (rem.take limit).length = min limit rem.length := List.length_take ..
    by_cases hemp : (rem.take limit).isEmpty
    · exfalso
      rw [List.isEmpty_iff] at hemp
      rcases List.take_eq_nil_iff.mp hemp with h | h
      · omega
      · rw [h] at hm
        simp at hm
    · rw [if_neg hemp]
      by_cases hlt : (rem.take limit).length < limit
      · rw [if_pos hlt]
        have hr : rem.length < limit := by
          rw [hminlen] at hlt
          omega
        have hall : rem.take limit = rem := List.take_of_length_le (by omega)
        refine ⟨rfl, ?_, ?_⟩
        · simp [hall]
        · simp [hall, Nat.div_eq_of_lt hr, Nat.mod_eq_of_lt hr]
      · rw [if_neg hlt]
        have hge : limit ≤ rem.length := by
          rw [hminlen] at hlt
          omega
        have hdl : (rem.drop limit).length = rem.length - limit := List.length_drop ..
        have hmodeq : rem.length % limit = (rem.length - limit) % limit := by
          conv_lhs => rw [show rem.length = (rem.length - limit) + limit by omega]
          rw [Nat.add_mod_right]
        have hdiveq : rem.length / limit = (rem.length - limit) / limit + 1 := by
          conv_lhs => rw [show rem.length = (rem.length - limit) + limit by omega]
          rw [Nat.add_div_right _ (by omega : 0 < limit)]
        obtain ⟨h1, h2, h3⟩ := ih (rem.drop limit) (by omega) hl (by rw [hdl, ← hmodeq]; exact hm)
        rw [hdl] at h3
        have hpl : (rem.take limit).length = limit := by
          rw [hminlen]
          omega
        refine ⟨h1, ?_, ?_⟩
        · dsimp only
          rw [List.flatten_cons, h2, List.take_append_drop]
        · dsimp only
          rw [List.map_cons, h3, hpl, hdiveq, hmodeq, List.replicate_succ, List.cons_append]

/-- C3: code_bug evidence.  When the message listing returns an empty page
the paginator yields that page but then raises instead of terminating
normally: the cursor update reads the id of the last message of the empty
page, which throws.  First conjunct: the run of the source (limit 100) over
an empty history yields the empty page with the raised flag; second: the
same for every limit and any fuel. -/
theorem paginator_empty_page_raises :
    listChannelMessagesModel 100 ([] : List Nat) = ([[]], true)
  ∧ ∀ (limit fuel : Nat), paginateGo limit (fuel + 1) ([] : List Nat) = ([[]], true) := by
  constructor
  · rfl
  · intro limit fuel
    rw [paginateGo_succ]
    simp

/-- C4 counterexample: one message with page size one, so N mod L = 0.  The
claim predicts exactly ceil(1 / 1) = 1 page and normal termination; the code
yields the full page, then an extra empty page, and raises. -/
theorem paginator_ceil_count_fails :
    listChannelMessagesModel 1 ([0] : List Nat) = ([[0], []], true)
  ∧ ¬ ((listChannelMessagesModel 1 ([0] : List Nat)).1.length = (1 + 1 - 1) / 1
        ∧ (listChannelMessagesModel 1 ([0] : List Nat)).2 = false) := by
  constructor
  · rfl
  · decide

/-- C4 (amended): for every channel with N messages and page limit L of at
least 1 such that N mod L is not zero, the paginator yields exactly
ceil(N / L) pages whose concatenation in yield order is the full newest to
oldest history, every page except the last having length L and the last
having length N mod L, and the generator terminates normally.  When N mod L
is zero the code instead yields an extra empty page after the full ones and
then raises, as the counterexample shows. -/
theorem paginator_page_shape {α : Type} (limit : Nat) (hist : List α)
    (hl : 1 ≤ limit) (hm : hist.length % limit ≠ 0) :
    (listChannelMessagesModel limit hist).2 = false
  ∧ (listChannelMessagesModel limit hist).1.flatten = hist
  ∧ (listChannelMessagesModel limit hist).1.map List.length
      = List.replicate (hist.length / limit) limit ++ [hist.length % limit]
  ∧ (listChannelMessagesModel limit hist).1.length = (hist.length + limit - 1) / limit := by
  obtain ⟨h1, h2, h3⟩ :=
    paginateGo_spec limit (hist.length + 1) hist (by omega) hl hm
  refine ⟨h1, h2, h3, ?_⟩
  have hlen : (listChannelMessagesModel limit hist).1.length = hist.length / limit + 1 := by
    have hc := congrArg List.length h3
    simpa using hc
  rw [hlen, ceil_div_of_mod_ne hl hm]

/-- Witness for C4: page limit 2 over a three message history gives two
pages of lengths two and one. -/
theorem paginator_page_shape_witness :
    1 ≤ 2 ∧ ([0, 1, 2] : List Nat).length % 2 ≠ 0 ∧
    ((listChannelMessagesModel 2 ([0, 1, 2] : List Nat)).2 = false
     ∧ (listChannelMessagesModel 2 ([0, 1, 2] : List Nat)).1.flatten = [0, 1, 2]
     ∧ (listChannelMessagesModel 2 ([0, 1, 2] : List Nat)).1.map List.length
         = List.replicate (([0, 1, 2] : List Nat).length / 2) 2
             ++ [([0, 1, 2] : List Nat).length % 2]
     ∧ (listChannelMessagesModel 2 ([0, 1, 2] : List Nat)).1.length
         = (([0, 1, 2] : List Nat).length + 2 - 1) / 2) :=
  ⟨by decide, by decide, paginator_page_shape 2 [0, 1, 2] (by decide) (by decide)⟩

/- ===================== download and endpoint decoding ===================== -/

/-- C9: with a finite maxSize, a response carrying no content-length header is
treated as exceeding the size ceiling: download returns false immediately
after the first attempt, pipes nothing to the destination, and does not
retry; the missing header is coalesced to Infinity (none) before the
comparison, and Infinity exceeds every finite ceiling. -/
theorem download_missing_content_length (att : Nat → Attempt) (m : Nat)
    (h : att 0 = Attempt.response none) :
    downloadModel att (some m) = ⟨false, false, 1⟩ ∧ infGt none (some m) = true := by
  constructor
  · simp [downloadModel, downloadGo, h, infGt]
  · rfl

/-- Witness for C9: an oracle that always answers with a header-less
response, against the ceiling 1000. -/
theorem download_missing_content_length_witness :
    (fun _ : Nat => Attempt.response none) 0 = Attempt.response none ∧
    (downloadModel (fun _ : Nat => Attempt.response none) (some 1000) = ⟨false, false, 1⟩
      ∧ infGt none (some 1000) = true) :=
  ⟨rfl, download_missing_content_length (fun _ => Attempt.response none) 1000 rfl⟩

/-- C10: the endpoint decoder dispatches on an exact string match of the
content-type header: exactly application/json is JSON parsed, exactly
text/plain is decoded as UTF-8 text, and any other value - the
charset-qualified application/json variant included, and a missing header
too - is returned as the raw byte buffer. -/
theorem endpointDecode_dispatch {α : Type} (data : α) :
    endpointDecode (some "application/json") data = Decoded.json data
  ∧ endpointDecode (some "text/plain") data = Decoded.text data
  ∧ endpointDecode (some "application/json; charset=utf-8") data = Decoded.raw data
  ∧ ∀ ct : Option String, ct ≠ some "application/json" → ct ≠ some "text/plain" →
      endpointDecode ct data = Decoded.raw data := by
  refine ⟨rfl, rfl, rfl, ?_⟩
  intro ct h1 h2
  unfold endpointDecode
  split
  · exact absurd rfl h2
  · exact absurd rfl h1
  · rfl

/-- Witness for C10: an image content type is neither exact match and comes
back raw. -/
theorem endpointDecode_dispatch_witness :
    some "image/png" ≠ some "application/json" ∧ some "image/png" ≠ some "text/plain" ∧
    endpointDecode (some "image/png") (0 : Nat) = Decoded.raw 0 :=
  ⟨by decide, by decide,
    (endpointDecode_dispatch (0 : Nat)).2.2.2 (some "image/png") (by decide) (by decide)⟩

/- ===================== Chunk writer lemmas ===================== -/

/-- One step of the saveFileChunk loop always records the manifest entry and
never warns: the success test sees the truthy un-awaited promise, so the
warn-and-skip branch is dead. -/
theorem saveFileStep_entries (overwrite saveSources : Bool) (fsExists : String → Bool)
    (dir : String) (acc : FileLoopAcc) (f : MessageFileM) :
    (saveFileStep overwrite saveSources fsExists dir acc f).entries
        = acc.entries ++ [fileEntryOf f]
    ∧ (saveFileStep overwrite saveSources fsExists dir acc f).warnings = acc.warnings := by
  unfold saveFileStep
  simp only [promiseTruthy, Bool.not_true, Bool.false_eq_true, if_false]
  split
  · split
    · exact ⟨rfl, rfl⟩
    · exact ⟨rfl, rfl⟩
  · exact ⟨rfl, rfl⟩

/-- The whole saveFileChunk loop records one manifest entry per chunk item, in
chunk order, and never warns - independently of any download outcome. -/
theorem saveFileLoop_entries (overwrite saveSources : Bool) (fsExists : String → Bool)
    (dir : String) (chunk : List MessageFileM) :
    ∀ acc : FileLoopAcc,
      (chunk.foldl (saveFileStep overwrite saveSources fsExists dir) acc).entries
        = acc.entries ++ chunk.map fileEntryOf
    ∧ (chunk.foldl (saveFileStep overwrite saveSources fsExists dir) acc).warnings
        = acc.warnings := by
  induction chunk with
  | nil => intro acc; simp
  | cons f fs ih =>
    intro acc
    rw [List.foldl_cons]
    obtain ⟨ih1, ih2⟩ := ih (saveFileStep overwrite saveSources fsExists dir acc f)
    obtain ⟨hs1, hs2⟩ := saveFileStep_entries overwrite saveSources fsExists dir acc f
    refine ⟨?_, ?_⟩
    · rw [ih1, hs1]
      simp
    · rw [ih2, hs2]

/-- C2: code_bug evidence.  The download call in saveFileChunk is not
awaited, so success is bound to the always-truthy promise object and the
warn-and-skip branch is dead: for every chunk and file system oracle no
warning is ever logged and the written manifest contains an entry for every
chunk item, never omitting one whose download failed.  The closed conjunct
runs the writer on a fresh one item chunk (a chunk whose only download the
transport fails; the source never reads the outcome, and the model has no
dependence on it): the download is started, no warning is logged, and the
manifest still carries that item with spans on it. -/
theorem saveFileChunk_never_skips :
    (∀ (overwrite saveSources : Bool) (fsExists : String → Bool) (dir : String)
        (chunk : List MessageFileM),
        (saveFileChunkModel overwrite saveSources fsExists dir chunk).warnings = []
      ∧ (saveFileChunkModel overwrite saveSources fsExists dir chunk).manifest.map
            FileManifest.entries
          = if chunk.length = 0 then none else some (chunk.map fileEntryOf))
  ∧ saveFileChunkModel false false (fun _ => false) "dest"
      [⟨"https://host/cat.png", "cat.png", "100"⟩]
      = ⟨false, ["https://host/cat.png"], [], [],
         some ⟨[⟨"100.cat.png", "cat.png", "https://host/cat.png", "100"⟩], 1, ["100", "100"]⟩,
         false⟩ := by
  constructor
  · intro overwrite saveSources fsExists dir chunk
    obtain ⟨he, hw⟩ := saveFileLoop_entries overwrite saveSources fsExists dir chunk ⟨[], [], [], []⟩
    by_cases hc : chunk.length = 0
    · simp [saveFileChunkModel, hc]
    · constructor
      · simp only [saveFileChunkModel, hc, if_false]
        simpa using hw
      · simp only [saveFileChunkModel, hc, if_false, Option.map_some]
        simpa using he
  · rfl

/-- C7 counterexample: the text chunk writer applied to a zero length chunk
raises a TypeError (reading the field source of the undefined chunk[0])
instead of being an error free no-op. -/
theorem saveTextChunk_empty_raises :
    saveTextChunkModel (fun m => m.id) [] = Except.error JsError.typeError := rfl

/-- C7 (amended): a zero length chunk is a guarded no-op for the file chunk
writer - no download started, no warning, no manifest written, no error,
returns true - while for the text chunk writer it writes no manifest but
raises a TypeError. -/
theorem zero_length_chunk_behavior :
    (∀ (overwrite saveSources : Bool) (fsExists : String → Bool) (dir : String),
        saveFileChunkModel overwrite saveSources fsExists dir []
          = ⟨true, [], [], [], none, true⟩)
  ∧ ∀ (stringify : MsgM → String),
      saveTextChunkModel stringify [] = Except.error JsError.typeError :=
  ⟨fun _ _ _ _ => rfl, fun _ => rfl⟩

end MemeCrawler
